import Mathlib

/-!
Verification development for the PerfKitBenchmarker resource lifecycle
orchestration core: shallow embeddings of `BenchmarkSpec` (Delete, Provision
network phase, Freeze, PickleLock, tag sanitization) and of the AWS provider
resources (`AwsVirtualMachine._Create`, `_Delete`, `_Exists`,
`AwsDedicatedHost._Delete`), together with theorems settling the spec claims.

Strings are modelled at the code-point level where character arithmetic is
needed (the tag sanitizer), and as Lean `String`s elsewhere.
-/

namespace PKB

/-! ## Tag sanitization (`BenchmarkSpec._SafeLabelKeyOrValue`)

Characters are modelled by their code points (`Nat`).  Python's
`str.lower`, `str.isalpha` and `str.isnumeric` are modelled over the ASCII
range, which covers the label alphabets at issue. -/

/-- Model of Python `str.lower` on one ASCII code point: uppercase letters
(65–90) are shifted to lowercase, everything else is unchanged. -/
def lowerCode (n : Nat) : Nat :=
  if 65 ≤ n ∧ n ≤ 90 then n + 32 else n

/-- Embeds `BenchmarkSpec._IsSafeKeyOrValueCharacter`:
`char.isalpha() or char.isnumeric() or char == '_'` (ASCII model:
letters 65–90/97–122, digits 48–57, underscore 95). -/
def _IsSafeKeyOrValueCharacter (n : Nat) : Bool :=
  ((65 ≤ n ∧ n ≤ 90) ∨ (97 ≤ n ∧ n ≤ 122)) ∨ (48 ≤ n ∧ n ≤ 57) ∨ n = 95

/-- The per-character replacement inside `_SafeLabelKeyOrValue`:
`c if self._IsSafeKeyOrValueCharacter(c) else '_'` (95 is `'_'`). -/
def safeReplace (n : Nat) : Nat :=
  if _IsSafeKeyOrValueCharacter n then n else 95

/-- Embeds `BenchmarkSpec._SafeLabelKeyOrValue`: join of the per-character
replacement over `key.lower()`, then truncation `result[:63]`. -/
def _SafeLabelKeyOrValue (key : List Nat) : List Nat :=
  (((key.map lowerCode).map safeReplace).take 63)

/-- Code points of a Lean string, used to state concrete examples. -/
def stringCodes (s : String) : List Nat :=
  s.data.map Char.toNat

/-! ## The Orchestrator (`BenchmarkSpec`) — teardown and the network
provisioning phase

A resource handle is abstracted to the one bit its `Delete()` (or, for a
firewall, `DisallowAllPorts()`) contributes to teardown control flow:
whether the call raises. -/

/-- One provisioned resource as seen by `BenchmarkSpec.Delete`:
`fails = true` means its teardown call raises an exception. -/
structure Res where
  fails : Bool
deriving DecidableEq, Repr

/-- Teardown operations invoked by `BenchmarkSpec.Delete`, in the order the
method issues them.  Indexed constructors identify the element of a
collection the call was made on. -/
inductive Op where
  | freeze
  | containerRegistry
  | spark
  | dpb
  | relationalDb
  | nonRelationalDb
  | spanner
  | tpu (i : Nat)
  | edw
  | nfs
  | smb
  | messaging
  | dataDiscovery
  | capacityReservation (i : Nat)
  | vm (i : Nat)
  | placementGroup (i : Nat)
  | firewall (i : Nat)
  | clusterServices
  | clusterContainers
  | cluster
  | network (key : String)
  | vpn
deriving DecidableEq, Repr

/-- The fields of `BenchmarkSpec` that drive `Delete`, `Provision`'s
capacity-reservation/network/peering phase, and `Freeze`'s guard. -/
structure SpecState where
  deleted : Bool
  freezePath : Option String
  containerRegistry : Option Res
  sparkService : Option Res
  dpbService : Option Res
  relationalDb : Option Res
  nonRelationalDb : Option Res
  spanner : Option Res
  tpus : List Res
  edwService : Option Res
  nfsService : Option Res
  smbService : Option Res
  messagingService : Option Res
  dataDiscoveryService : Option Res
  capacityReservations : List Res
  vms : List Res
  placementGroups : List Res
  firewalls : List Res
  containerCluster : Option Res
  networks : List (String × Res)
  vpnService : Option Res
  vpcPeering : Bool
deriving DecidableEq, Repr

/-- One teardown step of `Delete`: the operations it invokes, whether it
raises, and whether a `try/except` around it swallows the exception. -/
structure Step where
  ops : List Op
  failed : Bool
  guarded : Bool
deriving DecidableEq, Repr

/-- Step for an unguarded `if self.x: self.x.Delete()` singleton. -/
def optStep (o : Option Res) (op : Op) : Step :=
  match o with
  | none => ⟨[], false, false⟩
  | some r => ⟨[op], r.fails, false⟩

/-- Step for a `vm_util.RunThreaded` batch.  Modelled from the spec: the
Concurrency Executor (§4.3) runs every task to completion regardless of
individual failures and then raises one aggregate error iff any task
failed (`vm_util` is not part of the sources under review). -/
def threadedStep (mk : Nat → Op) (rs : List Res) (guarded : Bool) : Step :=
  ⟨(List.range rs.length).map mk, rs.any (·.fails), guarded⟩

/-- Step for a loop whose body wraps each call in its own `try/except`
(the firewall and network loops): every call runs, nothing escapes. -/
def perItemGuardedStep (mk : Nat → Op) (rs : List Res) : Step :=
  ⟨(List.range rs.length).map mk, false, true⟩

/-- Operations of an unguarded sequential delete loop (the placement-group
loop): stops at the first raising call, which is still invoked. -/
def seqOps (mk : Nat → Op) : Nat → List Res → List Op × Bool
  | _, [] => ([], false)
  | i, r :: rest =>
    if r.fails then ([mk i], true)
    else
      let t := seqOps mk (i + 1) rest
      (mk i :: t.1, t.2)

/-- Step for the container-cluster teardown:
`DeleteServices(); DeleteContainers(); Delete()`, unguarded; a raising
cluster aborts at its first call. -/
def clusterStep (o : Option Res) : Step :=
  match o with
  | none => ⟨[], false, false⟩
  | some r =>
    if r.fails then ⟨[Op.clusterServices], true, false⟩
    else ⟨[Op.clusterServices, Op.clusterContainers, Op.cluster], false, false⟩

/-- The teardown sequence of `BenchmarkSpec.Delete` (source order). -/
def deleteSteps (st : SpecState) : List Step :=
  [ ⟨if st.freezePath.isSome then [Op.freeze] else [], false, false⟩,
    optStep st.containerRegistry Op.containerRegistry,
    optStep st.sparkService Op.spark,
    optStep st.dpbService Op.dpb,
    optStep st.relationalDb Op.relationalDb,
    optStep st.nonRelationalDb Op.nonRelationalDb,
    optStep st.spanner Op.spanner,
    threadedStep Op.tpu st.tpus false,
    optStep st.edwService Op.edw,
    optStep st.nfsService Op.nfs,
    optStep st.smbService Op.smb,
    optStep st.messagingService Op.messaging,
    optStep st.dataDiscoveryService Op.dataDiscovery,
    threadedStep Op.capacityReservation st.capacityReservations true,
    threadedStep Op.vm st.vms true,
    ⟨(seqOps Op.placementGroup 0 st.placementGroups).1,
      (seqOps Op.placementGroup 0 st.placementGroups).2, false⟩,
    perItemGuardedStep Op.firewall st.firewalls,
    clusterStep st.containerCluster,
    ⟨st.networks.map (fun kv => Op.network kv.1), false, true⟩,
    optStep st.vpnService Op.vpn ]

/-- Runs teardown steps in order: an unguarded raising step stops the
sequence (its own operations were already invoked); a guarded raising step
is swallowed and the sequence continues. -/
def runSteps : List Step → List Op × Bool
  | [] => ([], false)
  | s :: rest =>
    if s.failed && !s.guarded then (s.ops, true)
    else
      let t := runSteps rest
      (s.ops ++ t.1, t.2)

/-- Observable outcome of one `Delete()` call: the operations invoked, in
order, whether the call raised, and the final `BenchmarkSpec` state. -/
structure DeleteResult where
  trace : List Op
  raised : Bool
  final : SpecState
deriving DecidableEq, Repr

/-- Embeds `BenchmarkSpec.Delete`: returns immediately when `deleted` is
already true; otherwise runs the teardown sequence and sets
`deleted := true` only if no unguarded step raised (a raised exception
propagates before the final assignment executes). -/
def BenchmarkSpecDelete (st : SpecState) : DeleteResult :=
  if st.deleted then ⟨[], false, st⟩
  else
    let t := runSteps (deleteSteps st)
    ⟨t.1, t.2, if t.2 then st else {st with deleted := true}⟩

/-- A `BenchmarkSpec` state with no resources at all. -/
def emptySpec : SpecState :=
  ⟨false, none, none, none, none, none, none, none, [], none, none, none,
   none, none, [], [], [], [], none, [], none, false⟩

/-- True when an optional resource, if present, does not raise on delete. -/
def optOk : Option Res → Bool
  | none => true
  | some r => !r.fails

/-- True when every resource whose teardown call is *not* wrapped in a
`try/except` in `BenchmarkSpec.Delete` is non-raising.  Failures are then
confined to the guarded steps: capacity reservations, VMs, firewalls and
networks. -/
def unguardedOk (st : SpecState) : Bool :=
  optOk st.containerRegistry && optOk st.sparkService && optOk st.dpbService &&
  optOk st.relationalDb && optOk st.nonRelationalDb && optOk st.spanner &&
  st.tpus.all (fun r => !r.fails) && optOk st.edwService &&
  optOk st.nfsService && optOk st.smbService && optOk st.messagingService &&
  optOk st.dataDiscoveryService && st.placementGroups.all (fun r => !r.fails) &&
  optOk st.containerCluster && optOk st.vpnService

/-- Operation list of a present optional resource. -/
def optOps (o : Option Res) (op : Op) : List Op :=
  match o with
  | none => []
  | some _ => [op]

/-- Operation list of the container-cluster teardown when it completes. -/
def clusterOps (o : Option Res) : List Op :=
  match o with
  | none => []
  | some _ => [Op.clusterServices, Op.clusterContainers, Op.cluster]

/-- Every teardown operation `Delete` issues when no step aborts early. -/
def fullTrace (st : SpecState) : List Op :=
  (if st.freezePath.isSome then [Op.freeze] else []) ++
  optOps st.containerRegistry Op.containerRegistry ++
  optOps st.sparkService Op.spark ++
  optOps st.dpbService Op.dpb ++
  optOps st.relationalDb Op.relationalDb ++
  optOps st.nonRelationalDb Op.nonRelationalDb ++
  optOps st.spanner Op.spanner ++
  (List.range st.tpus.length).map Op.tpu ++
  optOps st.edwService Op.edw ++
  optOps st.nfsService Op.nfs ++
  optOps st.smbService Op.smb ++
  optOps st.messagingService Op.messaging ++
  optOps st.dataDiscoveryService Op.dataDiscovery ++
  (List.range st.capacityReservations.length).map Op.capacityReservation ++
  (List.range st.vms.length).map Op.vm ++
  (List.range st.placementGroups.length).map Op.placementGroup ++
  (List.range st.firewalls.length).map Op.firewall ++
  clusterOps st.containerCluster ++
  st.networks.map (fun kv => Op.network kv.1) ++
  optOps st.vpnService Op.vpn

/-- A state whose NFS service raises on `Delete()` while an SMB service is
also present: the NFS deletion in `BenchmarkSpec.Delete` is not wrapped in
a `try/except`. -/
def nfsFailsSpec : SpecState :=
  {emptySpec with nfsService := some ⟨true⟩, smbService := some ⟨false⟩}

/-! ## `BenchmarkSpec.Provision` — capacity reservations, networks, peering

`Provision` creates capacity reservations, then creates the networks in
sorted-key order, then applies the VPC-peering rule.  Python's `sorted()`
on strings compares code points lexicographically; it is modelled by an
insertion sort over `keyLe`. -/

/-- Lexicographic order on code-point lists (Python string comparison). -/
def lexLe : List Nat → List Nat → Bool
  | [], _ => true
  | _ :: _, [] => false
  | x :: xs, y :: ys =>
    if x < y then true
    else if y < x then false
    else lexLe xs ys

/-- Python `<=` on the strings used as network keys. -/
def keyLe (a b : String) : Bool :=
  lexLe (stringCodes a) (stringCodes b)

/-- Sorted insertion of one key. -/
def insertKey (k : String) : List String → List String
  | [] => [k]
  | x :: xs => if keyLe k x then k :: x :: xs else x :: insertKey k xs

/-- Model of Python `sorted(six.iterkeys(self.networks))`. -/
def sortKeys (l : List String) : List String :=
  l.foldr insertKey []

/-- Operations issued by the capacity-reservation/network/peering phase of
`Provision`. -/
inductive POp where
  | createCapacityReservation (i : Nat)
  | createNetwork (key : String)
  | peer (a b : String)
deriving DecidableEq, Repr

/-- Embeds `errors.Error` raised for an unsupported network count. -/
inductive PError where
  | unsupportedNetworkCount (n : Nat)
deriving DecidableEq, Repr

/-- True exactly on peering operations. -/
def isPeerOp : POp → Bool
  | POp.peer _ _ => true
  | _ => false

/-- The capacity-reservation `Create()` calls issued first. -/
def capResOps (st : SpecState) : List POp :=
  (List.range st.capacityReservations.length).map POp.createCapacityReservation

/-- Embeds the capacity-reservation/network/peering phase of
`BenchmarkSpec.Provision`: create capacity reservations, create the
networks in sorted-key order, then — with `vpc_peering` set — raise
`errors.Error` for more than two networks, peer `networks[0]` with
`networks[1]` for exactly two, and do nothing for fewer. -/
def ProvisionNetworkPhase (st : SpecState) : List POp × Option PError :=
  let capOps := capResOps st
  let keys := sortKeys (st.networks.map Prod.fst)
  let netOps := keys.map POp.createNetwork
  if st.vpcPeering then
    if 2 < keys.length then
      (capOps ++ netOps, some (PError.unsupportedNetworkCount keys.length))
    else
      match keys with
      | [a, b] => (capOps ++ netOps ++ [POp.peer a b], none)
      | _ => (capOps ++ netOps, none)
  else (capOps ++ netOps, none)

/-- Three networks with VPC peering enabled (keys deliberately unsorted). -/
def threeNetSpec : SpecState :=
  {emptySpec with
    networks := [("c", ⟨false⟩), ("a", ⟨false⟩), ("b", ⟨false⟩)],
    vpcPeering := true}

/-- Two networks with VPC peering enabled (keys deliberately unsorted). -/
def twoNetSpec : SpecState :=
  {emptySpec with
    networks := [("b", ⟨false⟩), ("a", ⟨false⟩)], vpcPeering := true}

/-! ## AWS provider — `_Delete` for VMs and dedicated hosts (C4) -/

/-- AWS CLI commands issued by the delete paths. -/
inductive AwsCmd where
  | terminateInstances (id : String)
  | cancelSpotInstanceRequests (sir : String)
  | disassociateAddress (assoc : String)
  | releaseAddress (alloc : String)
  | releaseHosts (hostId : String)
deriving DecidableEq, Repr

/-- The fields of `AwsVirtualMachine` read by `_Delete`.  In a VM that was
never created, `id` is `None` (set in `__init__`), the
`spot_instance_request_id` attribute does not exist (it is set only inside
`_Exists` after an instance was observed), and `association_id` and
`allocation_id` are `None` (set only by `_ConfigureElasticIp` after
creation). -/
structure AwsVmDeleteState where
  id : Option String
  spotInstanceRequestId : Option String
  associationId : Option String
  allocationId : Option String
deriving DecidableEq, Repr

/-- Embeds `AwsVirtualMachine._Delete`: `terminate-instances` only when
`id` is set, `cancel-spot-instance-requests` only when the spot-request id
attribute exists, and — under `--aws_efa` — address disassociation/release
only when the respective ids are set. -/
def awsVmDelete (awsEfa : Bool) (st : AwsVmDeleteState) : List AwsCmd :=
  (match st.id with
   | some i => [AwsCmd.terminateInstances i]
   | none => []) ++
  (match st.spotInstanceRequestId with
   | some s => [AwsCmd.cancelSpotInstanceRequests s]
   | none => []) ++
  (if awsEfa then
    (match st.associationId with
     | some a => [AwsCmd.disassociateAddress a]
     | none => []) ++
    (match st.allocationId with
     | some a => [AwsCmd.releaseAddress a]
     | none => [])
  else [])

/-- Embeds `AwsDedicatedHost._Delete`: `release-hosts` only when `id` is
set. -/
def awsHostDelete (id : Option String) : List AwsCmd :=
  match id with
  | some i => [AwsCmd.releaseHosts i]
  | none => []

/-! ## AWS provider — `_Create` retry with idempotency token (C5)

`uuid.uuid4()` is modelled by a fresh-value counter threaded through the
state. -/

/-- The fields of `AwsVirtualMachine` that drive the
insufficient-host-capacity handling in `_Create`. -/
structure VmCreateState where
  clientToken : Nat
  nextFresh : Nat
  useDedicatedHost : Bool
  numVmsPerHost : Option Nat
  hostList : List Nat
  host : Option Nat
  nextHostId : Nat
  createdVms : Nat
deriving DecidableEq, Repr

/-- Outcome of one `run-instances` call, as classified from `stderr` /
return code by `_Create`. -/
inductive CreateOutcome where
  | success
  | insufficientCapacityOnHost
  | insufficientInstanceCapacity
deriving DecidableEq, Repr

/-- How one creation attempt ends. -/
inductive CreateResult where
  | ok
  | retryableCreation
  | creationError
  | insufficientCapacityCloudFailure
deriving DecidableEq, Repr

/-- The source condition under which `_Create` regenerates `client_token`:
a dedicated-host VM without a fixed `num_vms_per_host` hitting
`InsufficientCapacityOnHost` — the case that is safely restartable after a
fresh host is provisioned. -/
def restartableWithNewToken (st : VmCreateState) (o : CreateOutcome) : Bool :=
  st.useDedicatedHost && st.numVmsPerHost.isNone &&
    (o == CreateOutcome.insufficientCapacityOnHost)

/-- Embeds one execution of `AwsVirtualMachine._Create`: issues
`run-instances` with the current `client_token` (returned as the second
component; `client_token` deduplicates, so only a `success` outcome adds a
VM), and classifies the failure.  On `InsufficientCapacityOnHost` with no
`num_vms_per_host`, a fresh `AwsDedicatedHost` is appended and created,
`self.host` is re-pointed at it, `client_token` is regenerated, and
`RetryableCreationError` is raised; with `num_vms_per_host` set it is a
fatal `CreationError`; `InsufficientInstanceCapacity` raises the
capacity-failure error. -/
def awsVmCreateAttempt (st : VmCreateState) (o : CreateOutcome) :
    VmCreateState × Nat × CreateResult :=
  let token := st.clientToken
  match o with
  | CreateOutcome.success =>
    ({st with createdVms := st.createdVms + 1}, token, CreateResult.ok)
  | CreateOutcome.insufficientCapacityOnHost =>
    if st.useDedicatedHost then
      match st.numVmsPerHost with
      | some _ => (st, token, CreateResult.creationError)
      | none =>
        let hosts := st.hostList ++ [st.nextHostId]
        ({st with
            hostList := hosts,
            host := some st.nextHostId,
            nextHostId := st.nextHostId + 1,
            clientToken := st.nextFresh,
            nextFresh := st.nextFresh + 1},
         token, CreateResult.retryableCreation)
    else (st, token, CreateResult.creationError)
  | CreateOutcome.insufficientInstanceCapacity =>
    (st, token, CreateResult.insufficientCapacityCloudFailure)

/-- Modelled from the spec: the Retry/Poll Policy (§4.1) around
`Resource.Create` — the generic `resource.BaseResource.Create` and
`vm_util.Retry` are not among the sources under review.  Re-invokes
`_Create` while it raises `RetryableCreationError`, one list element per
available attempt; any other result propagates.  Returns the final state,
the `client_token` sent on each attempt, and the final result. -/
def createWithRetries :
    VmCreateState → List CreateOutcome → VmCreateState × List Nat × CreateResult
  | st, [] => (st, [], CreateResult.retryableCreation)
  | st, o :: rest =>
    let r := awsVmCreateAttempt st o
    match r.2.2 with
    | CreateResult.retryableCreation =>
      let t := createWithRetries r.1 rest
      (t.1, r.2.1 :: t.2.1, t.2.2)
    | res => (r.1, [r.2.1], res)

/-- A freshly constructed dedicated-host VM: `client_token` was generated
once in `__init__` (value 100 here), one dedicated host exists. -/
def freshVmState : VmCreateState :=
  ⟨100, 101, true, none, [0], some 0, 1, 0⟩

/-! ## AWS provider — `_Exists` status classification (C7) -/

/-- Embeds `INSTANCE_EXISTS_STATUSES` from the source. -/
def INSTANCE_EXISTS_STATUSES : List String := ["running", "stopping", "stopped"]

/-- Embeds `INSTANCE_DELETED_STATUSES` from the source. -/
def INSTANCE_DELETED_STATUSES : List String := ["shutting-down", "terminated"]

/-- Embeds `INSTANCE_TRANSITIONAL_STATUSES` from the source. -/
def INSTANCE_TRANSITIONAL_STATUSES : List String := ["pending"]

/-- Embeds `INSTANCE_KNOWN_STATUSES`: union of the above. -/
def INSTANCE_KNOWN_STATUSES : List String :=
  INSTANCE_EXISTS_STATUSES ++ INSTANCE_DELETED_STATUSES ++
    INSTANCE_TRANSITIONAL_STATUSES

/-- One instance record of a `describe-instances` response. -/
structure Ec2Instance where
  instanceId : String
  stateName : String
  stateReasonCode : String
  stateReasonMessage : String
  spotInstanceRequestId : String
deriving DecidableEq, Repr

/-- The fields of `AwsVirtualMachine` read or written by `_Exists`. -/
structure AwsExistsState where
  clientToken : Nat
  nextFresh : Nat
  createStartTime : Option Nat
  useSpotInstance : Bool
  id : Option String
  spotId : Option String
deriving DecidableEq, Repr

/-- One `_Exists` evaluation ends in a returned boolean, the retryable
`AwsTransitionalVmRetryableError`, the fatal `AwsUnknownStatusError`, the
capacity failure, or an assertion failure. -/
inductive ExistsOutcome where
  | result (b : Bool)
  | transitionalRetry
  | unknownStatus (s : String)
  | insufficientCapacity (msg : String)
  | assertionFailure
deriving DecidableEq, Repr

/-- Embeds one execution of the body of `AwsVirtualMachine._Exists` on a
`describe-instances` response (a list of reservations, each a list of
instances): asserts fewer than two reservations; an empty response is
`False` before any creation was started and the retryable transitional
error afterwards; asserts exactly one instance; records ids; a status
outside `INSTANCE_KNOWN_STATUSES` raises `AwsUnknownStatusError`; a
transitional status raises the retryable error; `terminated` with reason
`Server.InsufficientInstanceCapacity` raises the capacity failure;
`shutting-down` with reason `Server.InternalError` regenerates
`client_token`; otherwise returns membership in
`INSTANCE_EXISTS_STATUSES`. -/
def awsVmExistsStep (st : AwsExistsState)
    (reservations : List (List Ec2Instance)) : AwsExistsState × ExistsOutcome :=
  if 2 ≤ reservations.length then (st, ExistsOutcome.assertionFailure)
  else
    match reservations with
    | [] =>
      if st.createStartTime.isNone then (st, ExistsOutcome.result false)
      else (st, ExistsOutcome.transitionalRetry)
    | instances :: _ =>
      match instances with
      | [inst] =>
        let st1 := {st with id := some inst.instanceId}
        let st2 :=
          if st1.useSpotInstance then
            {st1 with spotId := some inst.spotInstanceRequestId}
          else st1
        if inst.stateName ∉ INSTANCE_KNOWN_STATUSES then
          (st2, ExistsOutcome.unknownStatus inst.stateName)
        else if inst.stateName ∈ INSTANCE_TRANSITIONAL_STATUSES then
          (st2, ExistsOutcome.transitionalRetry)
        else if inst.stateName = "terminated" ∧
            inst.stateReasonCode = "Server.InsufficientInstanceCapacity" then
          (st2, ExistsOutcome.insufficientCapacity inst.stateReasonMessage)
        else
          let st3 :=
            if inst.stateName = "shutting-down" ∧
                inst.stateReasonCode = "Server.InternalError" then
              {st2 with clientToken := st2.nextFresh, nextFresh := st2.nextFresh + 1}
            else st2
          (st3, ExistsOutcome.result
            (decide (inst.stateName ∈ INSTANCE_EXISTS_STATUSES)))
      | _ => (st, ExistsOutcome.assertionFailure)

/-- Modelled from the spec: the state-poll use of the Retry/Poll Policy
(§4.1) wrapping `_Exists` (`vm_util.Retry` is not among the sources under
review).  Re-invokes `_Exists` on successive responses while it raises the
transitional error; any other outcome propagates; exhausting the attempts
propagates the transitional error. -/
def pollExists :
    AwsExistsState → List (List (List Ec2Instance)) →
      AwsExistsState × ExistsOutcome
  | st, [] => (st, ExistsOutcome.transitionalRetry)
  | st, resv :: rest =>
    let r := awsVmExistsStep st resv
    match r.2 with
    | ExistsOutcome.transitionalRetry => pollExists r.1 rest
    | o => (r.1, o)

/-! ## `PickleLock` / `UnPickleLock` (C6) -/

/-- A `threading.Lock`, abstracted to its `locked()` flag. -/
structure PyLock where
  locked : Bool
deriving DecidableEq, Repr

/-- Embeds `lock.acquire(False)`: non-blocking acquisition — `none` models the
call returning `False` on an already-held lock, `some` the newly held
lock. -/
def lockAcquireNonblocking (l : PyLock) : Option PyLock :=
  if l.locked then none else some ⟨true⟩

/-- Embeds `PickleLock`: serialization captures exactly `lock.locked()`. -/
def PickleLock (l : PyLock) : Bool :=
  l.locked

/-- Embeds `UnPickleLock`: build a fresh unlocked `threading.Lock`; if the
captured flag was set, re-acquire it without blocking, raising
`pickle.UnpicklingError` if that fails (impossible on a fresh lock). -/
def UnPickleLock (locked : Bool) : Except String PyLock :=
  let lock : PyLock := ⟨false⟩
  if locked then
    match lockAcquireNonblocking lock with
    | none => Except.error "Cannot acquire lock"
    | some lk => Except.ok lk
  else Except.ok lock

/-! ## `BenchmarkSpec.Freeze` (C8) -/

/-- The environment `Freeze` runs against: which paths raise
`FileNotFoundError` when pickled to, and the run's temporary directory. -/
structure FreezeEnv where
  fileNotFound : String → Bool
  tempDir : String

/-- Embeds `self.Pickle(path)`: the successful write, or the environmental
`FileNotFoundError`. -/
def pickleWrite (env : FreezeEnv) (path : String) : Except String (List String) :=
  if env.fileNotFound path then Except.error path else Except.ok [path]

/-- Embeds `BenchmarkSpec.Freeze`: no configured `freeze_path` means do
nothing; otherwise pickle to it, and on `FileNotFoundError` pickle instead
to `f'{tempdir}/restore_spec.pickle'`.  Returns the successful snapshot
writes or the propagated error. -/
def BenchmarkSpecFreeze (env : FreezeEnv) (freezePath : Option String) :
    Except String (List String) :=
  match freezePath with
  | none => Except.ok []
  | some p =>
    if env.fileNotFound p then
      pickleWrite env (env.tempDir ++ "/restore_spec.pickle")
    else Except.ok [p]

theorem runSteps_no_abort (l : List Step)
    (h : ∀ s ∈ l, s.failed = true → s.guarded = true) :
    runSteps l = (l.foldr (fun s acc => s.ops ++ acc) [], false) := by
  induction l with
  | nil => rfl
  | cons s rest ih =>
    have hs := h s (List.mem_cons_self s rest)
    have hrest : ∀ x ∈ rest, x.failed = true → x.guarded = true :=
      fun x hx => h x (List.mem_cons_of_mem s hx)
    unfold runSteps
    rw [ih hrest]
    cases hf : s.failed with
    | false => simp
    | true => simp [hs hf]

theorem optStep_ops (o : Option Res) (op : Op) :
    (optStep o op).ops = optOps o op := by
  cases o <;> rfl

theorem optStep_failed_ok (o : Option Res) (op : Op) (h : optOk o = true) :
    (optStep o op).failed = false := by
  cases o <;> simp_all [optStep, optOk]

theorem clusterStep_ok (o : Option Res) (h : optOk o = true) :
    clusterStep o = ⟨clusterOps o, false, false⟩ := by
  cases o with
  | none => rfl
  | some r =>
    simp only [optOk, Bool.not_eq_true'] at h
    simp [clusterStep, clusterOps, h]

theorem seqOps_all_ok (mk : Nat → Op) :
    ∀ (i : Nat) (rs : List Res), rs.all (fun r => !r.fails) = true →
      seqOps mk i rs = ((List.range rs.length).map (fun j => mk (i + j)), false)
  | _, [], _ => by simp [seqOps]
  | i, r :: rest, h => by
    simp only [List.all_cons, Bool.and_eq_true, Bool.not_eq_true'] at h
    unfold seqOps
    rw [h.1, seqOps_all_ok mk (i + 1) rest h.2]
    simp only [List.length_cons, List.range_succ_eq_map, List.map_cons,
      List.map_map, if_neg Bool.false_ne_true, Nat.add_zero]
    have hfun : ((fun j => mk (i + j)) ∘ Nat.succ) = fun j => mk (i + 1 + j) := by
      funext j
      simp only [Function.comp_apply]
      congr 1
      omega
    rw [hfun]

/-- C1 counterexample: with a raising NFS service, `Delete()` itself
raises, the later SMB teardown step never executes, and `deleted` stays
false — so not every teardown step's error is caught and swallowed. -/
theorem delete_swallows_counterexample :
    (BenchmarkSpecDelete nfsFailsSpec).raised = true ∧
    Op.smb ∉ (BenchmarkSpecDelete nfsFailsSpec).trace ∧
    (BenchmarkSpecDelete nfsFailsSpec).final.deleted = false := by
  decide

/-- C1 (amended): in `BenchmarkSpec.Delete` only the capacity-reservation,
VM, firewall and network steps are guarded by `try/except`; when every
*unguarded* step's resource is non-raising, `Delete()` does not raise no
matter which guarded steps fail, every teardown operation is attempted,
and `deleted` is set to true at the end. -/
theorem delete_swallows_guarded (st : SpecState) (h : unguardedOk st = true)
    (hd : st.deleted = false) :
    BenchmarkSpecDelete st = ⟨fullTrace st, false, {st with deleted := true}⟩ := by
  simp only [unguardedOk, Bool.and_eq_true] at h
  obtain ⟨⟨⟨⟨⟨⟨⟨⟨⟨⟨⟨⟨⟨⟨hcr, hsp⟩, hdpb⟩, hrdb⟩, hnrdb⟩, hspan⟩, htpu⟩,
    hedw⟩, hnfs⟩, hsmb⟩, hmsg⟩, hdds⟩, hpg⟩, hcc⟩, hvpn⟩ := h
  have hsteps : ∀ s ∈ deleteSteps st, s.failed = true → s.guarded = true := by
    intro s hs
    simp only [deleteSteps, List.mem_cons, List.not_mem_nil, or_false] at hs
    rcases hs with rfl | rfl | rfl | rfl | rfl | rfl | rfl | rfl | rfl | rfl |
      rfl | rfl | rfl | rfl | rfl | rfl | rfl | rfl | rfl | rfl
    · intro hf; simp at hf
    · rw [optStep_failed_ok _ _ hcr]; intro hf; cases hf
    · rw [optStep_failed_ok _ _ hsp]; intro hf; cases hf
    · rw [optStep_failed_ok _ _ hdpb]; intro hf; cases hf
    · rw [optStep_failed_ok _ _ hrdb]; intro hf; cases hf
    · rw [optStep_failed_ok _ _ hnrdb]; intro hf; cases hf
    · rw [optStep_failed_ok _ _ hspan]; intro hf; cases hf
    · intro hf
      exfalso
      simp only [threadedStep, List.any_eq_true] at hf
      obtain ⟨r, hr, hrf⟩ := hf
      simp only [List.all_eq_true] at htpu
      have := htpu r hr
      simp [hrf] at this
    · rw [optStep_failed_ok _ _ hedw]; intro hf; cases hf
    · rw [optStep_failed_ok _ _ hnfs]; intro hf; cases hf
    · rw [optStep_failed_ok _ _ hsmb]; intro hf; cases hf
    · rw [optStep_failed_ok _ _ hmsg]; intro hf; cases hf
    · rw [optStep_failed_ok _ _ hdds]; intro hf; cases hf
    · intro _; rfl
    · intro _; rfl
    · intro hf
      exfalso
      rw [seqOps_all_ok Op.placementGroup 0 st.placementGroups hpg] at hf
      cases hf
    · intro _; rfl
    · rw [clusterStep_ok _ hcc]; intro hf; cases hf
    · intro hf; cases hf
    · rw [optStep_failed_ok _ _ hvpn]; intro hf; cases hf
  unfold BenchmarkSpecDelete
  rw [if_neg (by rw [hd]; exact Bool.false_ne_true)]
  rw [runSteps_no_abort _ hsteps]
  simp only [if_neg Bool.false_ne_true]
  have htr : (deleteSteps st).foldr (fun s acc => s.ops ++ acc) [] =
      fullTrace st := by
    simp only [deleteSteps, List.foldr_cons, List.foldr_nil,
      optStep_ops, clusterStep_ok _ hcc,
      seqOps_all_ok Op.placementGroup 0 st.placementGroups hpg,
      threadedStep, perItemGuardedStep, fullTrace, Nat.zero_add,
      List.append_nil, List.append_assoc]
  rw [htr]

/-- Witness for `delete_swallows_guarded`: a state with one failing VM (a
guarded step) and one network still tears down completely. -/
theorem delete_swallows_guarded_witness :
    BenchmarkSpecDelete
        {emptySpec with vms := [⟨true⟩], networks := [("net0", ⟨false⟩)]} =
      ⟨[Op.vm 0, Op.network "net0"], false,
        {emptySpec with deleted := true, vms := [⟨true⟩], networks := [("net0", ⟨false⟩)]}⟩ := by
  rw [delete_swallows_guarded
    {emptySpec with vms := [⟨true⟩], networks := [("net0", ⟨false⟩)]}
    (by decide) (by decide)]
  decide

/-- C2: once a `Delete()` call has completed without raising, the
`deleted` flag is true and a second `Delete()` returns immediately: it
invokes no resource operation, raises nothing, and leaves the state
unchanged — observably identical to having called it once. -/
theorem delete_idempotent (st : SpecState) (tr : List Op) (st2 : SpecState)
    (h : BenchmarkSpecDelete st = ⟨tr, false, st2⟩) :
    st2.deleted = true ∧ BenchmarkSpecDelete st2 = ⟨[], false, st2⟩ := by
  unfold BenchmarkSpecDelete at h
  by_cases hd : st.deleted
  · rw [if_pos hd] at h
    cases h
    exact ⟨hd, by unfold BenchmarkSpecDelete; rw [if_pos hd]⟩
  · rw [if_neg hd] at h
    simp only [DeleteResult.mk.injEq] at h
    obtain ⟨-, h2, h3⟩ := h
    rw [h2] at h3
    simp only [if_neg Bool.false_ne_true] at h3
    have hdel : st2.deleted = true := by rw [← h3]
    refine ⟨hdel, ?_⟩
    unfold BenchmarkSpecDelete
    rw [if_pos hdel]

/-- Witness for `delete_idempotent` at a concrete one-network state. -/
theorem delete_idempotent_witness :
    ({emptySpec with deleted := true, networks := [("n", ⟨false⟩)]} :
        SpecState).deleted = true ∧
    BenchmarkSpecDelete
        {emptySpec with deleted := true, networks := [("n", ⟨false⟩)]} =
      ⟨[], false, {emptySpec with deleted := true, networks := [("n", ⟨false⟩)]}⟩ :=
  delete_idempotent {emptySpec with networks := [("n", ⟨false⟩)]}
    [Op.network "n"]
    {emptySpec with deleted := true, networks := [("n", ⟨false⟩)]}
    (by decide)

theorem lowerCode_idem (n : Nat) : lowerCode (lowerCode n) = lowerCode n := by
  unfold lowerCode
  split_ifs <;> omega

theorem safeReplace_lower_idem (n : Nat) :
    safeReplace (lowerCode (safeReplace (lowerCode n))) =
      safeReplace (lowerCode n) := by
  unfold safeReplace _IsSafeKeyOrValueCharacter lowerCode
  split_ifs <;> simp_all <;> omega

theorem safeLabel_idem (key : List Nat) :
    _SafeLabelKeyOrValue (_SafeLabelKeyOrValue key) = _SafeLabelKeyOrValue key := by
  unfold _SafeLabelKeyOrValue
  rw [List.map_take, List.map_take, List.take_take]
  simp only [Nat.min_self, List.map_map]
  have hf : (safeReplace ∘ lowerCode ∘ safeReplace ∘ lowerCode) =
      (safeReplace ∘ lowerCode) := by
    funext n
    simp only [Function.comp_apply]
    exact safeReplace_lower_idem n
  rw [hf]

/-- C9: the tag sanitizer lowercases its input, replaces every character that
is not alphanumeric or underscore with an underscore, and caps the length at
63 characters; in particular sanitizing "My Key!" yields "my_key_". -/
theorem safeLabel_sanitizes :
    _SafeLabelKeyOrValue (stringCodes "My Key!") = stringCodes "my_key_" ∧
    (∀ key : List Nat, (_SafeLabelKeyOrValue key).length = min 63 key.length) ∧
    (∀ (key : List Nat) (i : Nat), i < 63 →
      (_SafeLabelKeyOrValue key)[i]? =
        (key[i]?).map (fun n => safeReplace (lowerCode n))) := by
  refine ⟨by decide, fun key => ?_, fun key i hi => ?_⟩
  · simp [_SafeLabelKeyOrValue]
  · unfold _SafeLabelKeyOrValue
    rw [List.getElem?_take_of_lt hi, List.getElem?_map, List.getElem?_map,
      Option.map_map]
    rfl

/-- Witness for `safeLabel_sanitizes` at the concrete input "My Key!". -/
theorem safeLabel_sanitizes_witness :
    (_SafeLabelKeyOrValue (stringCodes "My Key!"))[0]? =
      ((stringCodes "My Key!")[0]?).map (fun n => safeReplace (lowerCode n)) :=
  safeLabel_sanitizes.2.2 (stringCodes "My Key!") 0 (by decide)

/-- C10: the tag sanitizer is idempotent — applying `_SafeLabelKeyOrValue`
to its own output returns that output unchanged. -/
theorem safeLabel_idempotent (key : List Nat) :
    _SafeLabelKeyOrValue (_SafeLabelKeyOrValue key) = _SafeLabelKeyOrValue key :=
  safeLabel_idem key

theorem lexLe_total : ∀ xs ys : List Nat, lexLe xs ys = true ∨ lexLe ys xs = true
  | [], _ => Or.inl rfl
  | _ :: _, [] => Or.inr rfl
  | x :: xs, y :: ys => by
    unfold lexLe
    rcases Nat.lt_trichotomy x y with h | h | h
    · left
      rw [if_pos h]
    · subst h
      simpa [Nat.lt_irrefl] using lexLe_total xs ys
    · right
      rw [if_pos h]

theorem keyLe_total (a b : String) : keyLe a b = true ∨ keyLe b a = true :=
  lexLe_total (stringCodes a) (stringCodes b)

theorem mem_insertKey (a k : String) :
    ∀ l : List String, a ∈ insertKey k l ↔ a = k ∨ a ∈ l
  | [] => by simp [insertKey]
  | x :: xs => by
    unfold insertKey
    split
    · simp
    · rw [List.mem_cons, mem_insertKey a k xs, List.mem_cons]
      tauto

theorem length_insertKey (k : String) :
    ∀ l : List String, (insertKey k l).length = l.length + 1
  | [] => rfl
  | x :: xs => by
    unfold insertKey
    split
    · rfl
    · simp [length_insertKey k xs]

theorem lexLe_trans :
    ∀ xs ys zs : List Nat, lexLe xs ys = true → lexLe ys zs = true →
      lexLe xs zs = true
  | [], _, _, _, _ => rfl
  | _ :: _, [], _, h1, _ => by simp [lexLe] at h1
  | _ :: _, _ :: _, [], _, h2 => by simp [lexLe] at h2
  | x :: xs, y :: ys, z :: zs, h1, h2 => by
    unfold lexLe at h1 h2 ⊢
    rcases Nat.lt_trichotomy x y with hxy | hxy | hxy
    · rcases Nat.lt_trichotomy y z with hyz | hyz | hyz
      · rw [if_pos (hxy.trans hyz)]
      · subst hyz
        rw [if_pos hxy]
      · rw [if_neg (by omega), if_pos hyz] at h2
        cases h2
    · subst hxy
      rw [if_neg (Nat.lt_irrefl x), if_neg (Nat.lt_irrefl x)] at h1
      rcases Nat.lt_trichotomy x z with hxz | hxz | hxz
      · rw [if_pos hxz]
      · subst hxz
        rw [if_neg (Nat.lt_irrefl x), if_neg (Nat.lt_irrefl x)] at h2 ⊢
        exact lexLe_trans xs ys zs h1 h2
      · rw [if_neg (by omega), if_pos hxz] at h2
        cases h2
    · rw [if_neg (by omega), if_pos hxy] at h1
      cases h1

theorem keyLe_trans (a b c : String) (h1 : keyLe a b = true)
    (h2 : keyLe b c = true) : keyLe a c = true :=
  lexLe_trans (stringCodes a) (stringCodes b) (stringCodes c) h1 h2

theorem pairwise_insertKey (k : String) :
    ∀ l : List String, l.Pairwise (fun a b => keyLe a b = true) →
      (insertKey k l).Pairwise (fun a b => keyLe a b = true)
  | [], _ => List.pairwise_singleton _ k
  | x :: xs, h => by
    rw [List.pairwise_cons] at h
    by_cases hkx : keyLe k x = true
    · rw [insertKey, if_pos hkx, List.pairwise_cons]
      refine ⟨fun b hb => ?_, List.pairwise_cons.2 h⟩
      rw [List.mem_cons] at hb
      rcases hb with rfl | hb
      · exact hkx
      · exact keyLe_trans k x b hkx (h.1 b hb)
    · rw [insertKey, if_neg hkx, List.pairwise_cons]
      refine ⟨fun b hb => ?_, pairwise_insertKey k xs h.2⟩
      rw [mem_insertKey] at hb
      rcases hb with rfl | hb
      · rcases keyLe_total x b with hxb | hbx
        · exact hxb
        · exact absurd hbx hkx
      · exact h.1 b hb

theorem sortKeys_pairwise :
    ∀ l : List String, (sortKeys l).Pairwise (fun a b => keyLe a b = true)
  | [] => List.Pairwise.nil
  | x :: xs => pairwise_insertKey x (sortKeys xs) (sortKeys_pairwise xs)

theorem mem_sortKeys (a : String) :
    ∀ l : List String, a ∈ sortKeys l ↔ a ∈ l
  | [] => Iff.rfl
  | x :: xs => by
    show a ∈ insertKey x (sortKeys xs) ↔ _
    rw [mem_insertKey, mem_sortKeys a xs, List.mem_cons]

theorem length_sortKeys :
    ∀ l : List String, (sortKeys l).length = l.length
  | [] => rfl
  | x :: xs => by
    show (insertKey x (sortKeys xs)).length = _
    rw [length_insertKey, length_sortKeys xs, List.length_cons]

theorem countP_capResOps (st : SpecState) :
    (capResOps st).countP isPeerOp = 0 := by
  rw [List.countP_eq_zero]
  intro op hop
  rw [capResOps, List.mem_map] at hop
  obtain ⟨i, -, rfl⟩ := hop
  simp [isPeerOp]

theorem countP_netOps (keys : List String) :
    (keys.map POp.createNetwork).countP isPeerOp = 0 := by
  rw [List.countP_eq_zero]
  intro op hop
  rw [List.mem_map] at hop
  obtain ⟨k, -, rfl⟩ := hop
  simp [isPeerOp]

/-- C3 counterexample: provisioning three networks with VPC peering
enabled creates all three networks first and only then raises the
configuration error — not "before any network is created". -/
theorem provision_peering_counterexample :
    ProvisionNetworkPhase threeNetSpec =
      ([POp.createNetwork "a", POp.createNetwork "b", POp.createNetwork "c"],
        some (PError.unsupportedNetworkCount 3)) ∧
    POp.createNetwork "a" ∈ (ProvisionNetworkPhase threeNetSpec).1 := by
  decide

/-- C3 (amended): with VPC peering enabled, exactly two networks yield
exactly one peering call, issued on the two networks in sorted-key order
after their creation; more than two networks raise the configuration
error, but only *after* every network has been created (and before any
peering call). -/
theorem provision_peering_amended (st : SpecState)
    (h : st.vpcPeering = true) :
    (∀ a b, sortKeys (st.networks.map Prod.fst) = [a, b] →
      keyLe a b = true ∧
      ProvisionNetworkPhase st =
        (capResOps st ++ [POp.createNetwork a, POp.createNetwork b] ++
          [POp.peer a b], none) ∧
      (ProvisionNetworkPhase st).1.countP isPeerOp = 1) ∧
    (2 < st.networks.length →
      (ProvisionNetworkPhase st).2 =
        some (PError.unsupportedNetworkCount st.networks.length) ∧
      (ProvisionNetworkPhase st).1.countP isPeerOp = 0 ∧
      ∀ k ∈ st.networks.map Prod.fst,
        POp.createNetwork k ∈ (ProvisionNetworkPhase st).1) := by
  have hklen : (sortKeys (st.networks.map Prod.fst)).length =
      st.networks.length := by
    rw [length_sortKeys, List.length_map]
  constructor
  · intro a b hk
    have hsorted := sortKeys_pairwise (st.networks.map Prod.fst)
    rw [hk, List.pairwise_cons] at hsorted
    have hab : keyLe a b = true :=
      hsorted.1 b (List.mem_cons_self b [])
    have heval : ProvisionNetworkPhase st =
        (capResOps st ++ [POp.createNetwork a, POp.createNetwork b] ++
          [POp.peer a b], none) := by
      unfold ProvisionNetworkPhase
      rw [hk, h]
      simp
    refine ⟨hab, heval, ?_⟩
    rw [heval]
    simp [List.countP_append, countP_capResOps, List.countP_cons, isPeerOp]
  · intro hlen
    have hgt : 2 < (sortKeys (st.networks.map Prod.fst)).length := by
      rw [hklen]
      exact hlen
    have heval : ProvisionNetworkPhase st =
        (capResOps st ++
          (sortKeys (st.networks.map Prod.fst)).map POp.createNetwork,
          some (PError.unsupportedNetworkCount
            (sortKeys (st.networks.map Prod.fst)).length)) := by
      unfold ProvisionNetworkPhase
      simp only [h, if_true]
      rw [if_pos hgt]
    refine ⟨?_, ?_, ?_⟩
    · rw [heval, hklen]
    · rw [heval]
      simp only [List.countP_append, countP_capResOps, countP_netOps]
    · intro k hkmem
      rw [heval]
      simp only [List.mem_append]
      right
      exact List.mem_map_of_mem POp.createNetwork ((mem_sortKeys k _).2 hkmem)

/-- Witness for `provision_peering_amended`: two networks with keys
registered in the order "b", "a" are created in sorted order and peered
once as `peer "a" "b"`. -/
theorem provision_peering_amended_witness :
    keyLe "a" "b" = true ∧
    ProvisionNetworkPhase twoNetSpec =
      (capResOps twoNetSpec ++
        [POp.createNetwork "a", POp.createNetwork "b"] ++ [POp.peer "a" "b"],
        none) ∧
    (ProvisionNetworkPhase twoNetSpec).1.countP isPeerOp = 1 :=
  (provision_peering_amended twoNetSpec rfl).1 "a" "b" (by decide)

/-- C4: a never-created resource — `id` unset, and hence no spot-request,
address-association or address-allocation id either — makes `_Delete` a
no-op issuing no AWS CLI command, for `AwsVirtualMachine` (under either
value of `--aws_efa`) and for `AwsDedicatedHost`. -/
theorem delete_never_created_noop (awsEfa : Bool) (vm : AwsVmDeleteState)
    (hostId : Option String) (h1 : vm.id = none)
    (h2 : vm.spotInstanceRequestId = none) (h3 : vm.associationId = none)
    (h4 : vm.allocationId = none) (h5 : hostId = none) :
    awsVmDelete awsEfa vm = [] ∧ awsHostDelete hostId = [] := by
  subst h5
  refine ⟨?_, rfl⟩
  unfold awsVmDelete
  rw [h1, h2, h3, h4]
  cases awsEfa <;> rfl

/-- Witness for `delete_never_created_noop` on a fresh VM and host. -/
theorem delete_never_created_noop_witness :
    awsVmDelete true ⟨none, none, none, none⟩ = [] ∧
      awsHostDelete none = [] :=
  delete_never_created_noop true ⟨none, none, none, none⟩ none rfl rfl rfl
    rfl rfl

/-- C5: a dedicated-host VM creation failing twice with the retryable
`InsufficientCapacityOnHost` and succeeding on the third attempt issues
exactly three `run-instances` calls (tokens 100, 101, 102 — pairwise
distinct), creates exactly one VM, and provisions a fresh dedicated host
on each capacity failure; in general, every attempt sends the current
`client_token`, which was generated once at construction and is
regenerated exactly when the attempt is classified as safely restartable
(`restartableWithNewToken`). -/
theorem create_retry_token (st : VmCreateState) (o : CreateOutcome) :
    (createWithRetries freshVmState
      [CreateOutcome.insufficientCapacityOnHost,
        CreateOutcome.insufficientCapacityOnHost,
        CreateOutcome.success]).2.1 = [100, 101, 102] ∧
    (createWithRetries freshVmState
      [CreateOutcome.insufficientCapacityOnHost,
        CreateOutcome.insufficientCapacityOnHost,
        CreateOutcome.success]).2.2 = CreateResult.ok ∧
    (createWithRetries freshVmState
      [CreateOutcome.insufficientCapacityOnHost,
        CreateOutcome.insufficientCapacityOnHost,
        CreateOutcome.success]).1.createdVms = 1 ∧
    (createWithRetries freshVmState
      [CreateOutcome.insufficientCapacityOnHost,
        CreateOutcome.insufficientCapacityOnHost,
        CreateOutcome.success]).2.1.Nodup ∧
    (createWithRetries freshVmState
      [CreateOutcome.insufficientCapacityOnHost,
        CreateOutcome.insufficientCapacityOnHost,
        CreateOutcome.success]).1.hostList = [0, 1, 2] ∧
    (awsVmCreateAttempt st o).2.1 = st.clientToken ∧
    (awsVmCreateAttempt st o).1.clientToken =
      (if restartableWithNewToken st o then st.nextFresh
        else st.clientToken) := by
  refine ⟨by decide, by decide, by decide, by decide, by decide, ?_, ?_⟩
  · unfold awsVmCreateAttempt
    cases o <;> try rfl
    cases hd : st.useDedicatedHost <;> cases hn : st.numVmsPerHost <;>
      simp [hd, hn]
  · unfold awsVmCreateAttempt restartableWithNewToken
    cases o <;> cases hd : st.useDedicatedHost <;>
      cases hn : st.numVmsPerHost <;> simp [hd, hn]

/-- C6: serializing a lock captures exactly its `locked()` flag, and
deserializing reconstructs a lock with the same flag — the round trip is
the identity — and a lock restored as held cannot be re-acquired without
blocking. -/
theorem pickleLock_roundtrip (l : PyLock) :
    UnPickleLock (PickleLock l) = Except.ok l ∧
    (l.locked = true → lockAcquireNonblocking l = none) := by
  obtain ⟨b⟩ := l
  cases b <;> simp [UnPickleLock, PickleLock, lockAcquireNonblocking]

/-- Witness for `pickleLock_roundtrip` on a held lock. -/
theorem pickleLock_roundtrip_witness :
    UnPickleLock (PickleLock ⟨true⟩) = Except.ok ⟨true⟩ ∧
      lockAcquireNonblocking ⟨true⟩ = none :=
  ⟨(pickleLock_roundtrip ⟨true⟩).1, (pickleLock_roundtrip ⟨true⟩).2 rfl⟩

/-- C8: `Freeze` with no configured `freeze_path` does nothing; when the
configured path fails environmentally (`FileNotFoundError`) and the run's
temporary directory is writable, the snapshot is written to the
deterministic fallback `tempdir ++ "/restore_spec.pickle"` and no error
propagates. -/
theorem freeze_fallback (env : FreezeEnv) (p : String)
    (h1 : env.fileNotFound p = true)
    (h2 : env.fileNotFound (env.tempDir ++ "/restore_spec.pickle") = false) :
    BenchmarkSpecFreeze env none = Except.ok [] ∧
    BenchmarkSpecFreeze env (some p) =
      Except.ok [env.tempDir ++ "/restore_spec.pickle"] := by
  refine ⟨rfl, ?_⟩
  simp [BenchmarkSpecFreeze, pickleWrite, h1, h2]

/-- C7: `_Exists` classifies every status: a status outside
`INSTANCE_KNOWN_STATUSES` is the fatal unknown-status error (never a
returned boolean); a transitional status raises the retryable error, which
the poll policy answers by re-querying rather than failing; an empty
response after creation started also re-polls rather than reading as
absence; and a boolean is returned only for a stable (known,
non-transitional) status, `true` exactly on `INSTANCE_EXISTS_STATUSES`. -/
theorem exists_status_classification :
    (∀ (st : AwsExistsState) (inst : Ec2Instance),
      inst.stateName ∉ INSTANCE_KNOWN_STATUSES →
      (awsVmExistsStep st [[inst]]).2 =
        ExistsOutcome.unknownStatus inst.stateName) ∧
    (∀ (st : AwsExistsState) (inst : Ec2Instance),
      inst.stateName ∈ INSTANCE_TRANSITIONAL_STATUSES →
      (awsVmExistsStep st [[inst]]).2 = ExistsOutcome.transitionalRetry) ∧
    (∀ st : AwsExistsState, st.createStartTime.isSome = true →
      (awsVmExistsStep st []).2 = ExistsOutcome.transitionalRetry) ∧
    (∀ (st : AwsExistsState) (resv : List (List Ec2Instance))
      (rest : List (List (List Ec2Instance))),
      (awsVmExistsStep st resv).2 = ExistsOutcome.transitionalRetry →
      pollExists st (resv :: rest) =
        pollExists (awsVmExistsStep st resv).1 rest) ∧
    (∀ (st : AwsExistsState) (resv : List (List Ec2Instance)) (b : Bool),
      (awsVmExistsStep st resv).2 = ExistsOutcome.result b →
      (resv = [] ∧ st.createStartTime = none ∧ b = false) ∨
      (∃ inst, resv = [[inst]] ∧
        inst.stateName ∈ INSTANCE_KNOWN_STATUSES ∧
        inst.stateName ∉ INSTANCE_TRANSITIONAL_STATUSES ∧
        (b = true ↔ inst.stateName ∈ INSTANCE_EXISTS_STATUSES))) := by
  refine ⟨?_, ?_, ?_, ?_, ?_⟩
  · intro st inst h
    simp [awsVmExistsStep, h]
  · intro st inst h
    have hk : inst.stateName ∈ INSTANCE_KNOWN_STATUSES := by
      simp only [INSTANCE_TRANSITIONAL_STATUSES, List.mem_singleton] at h
      simp [INSTANCE_KNOWN_STATUSES, INSTANCE_EXISTS_STATUSES,
        INSTANCE_DELETED_STATUSES, INSTANCE_TRANSITIONAL_STATUSES, h]
    simp [awsVmExistsStep, h, hk]
  · intro st h
    have hn : st.createStartTime.isNone = false := by
      cases hc : st.createStartTime
      · simp [hc] at h
      · rfl
    simp [awsVmExistsStep, hn]
  · intro st resv rest h
    simp [pollExists, h]
  · intro st resv b h
    rcases resv with _ | ⟨instances, resv2⟩
    · left
      simp only [awsVmExistsStep, List.length_nil] at h
      cases hc : st.createStartTime
      · simp [hc] at h
        exact ⟨rfl, rfl, h⟩
      · simp [hc] at h
    · rcases resv2 with _ | ⟨r2, more⟩
      · rcases instances with _ | ⟨inst, insts⟩
        · simp [awsVmExistsStep] at h
        · rcases insts with _ | ⟨inst2, more2⟩
          · right
            refine ⟨inst, rfl, ?_⟩
            simp only [awsVmExistsStep, List.length_singleton,
              apply_ite Prod.snd] at h
            split_ifs at h with hlen hunk htrans hcap
            refine ⟨hunk, htrans, ?_⟩
            rw [← ExistsOutcome.result.inj h]
            exact decide_eq_true_iff
          · simp [awsVmExistsStep] at h
      · simp [awsVmExistsStep] at h

/-- Witness for `exists_status_classification`: an unknown status "limbo"
is fatal, a "pending" status after creation started re-polls. -/
theorem exists_status_classification_witness :
    (awsVmExistsStep ⟨1, 2, none, false, none, none⟩
        [[⟨"i-1", "limbo", "", "", "s"⟩]]).2 =
      ExistsOutcome.unknownStatus "limbo" ∧
    (awsVmExistsStep ⟨1, 2, some 5, false, none, none⟩
        [[⟨"i-1", "pending", "", "", "s"⟩]]).2 =
      ExistsOutcome.transitionalRetry :=
  ⟨exists_status_classification.1 ⟨1, 2, none, false, none, none⟩
      ⟨"i-1", "limbo", "", "", "s"⟩ (by decide),
    exists_status_classification.2.1 ⟨1, 2, some 5, false, none, none⟩
      ⟨"i-1", "pending", "", "", "s"⟩ (by decide)⟩

/-- Witness for `freeze_fallback`: the configured path "/cfg/snap" is
unwritable, the fallback inside "/tmp/run0" succeeds. -/
theorem freeze_fallback_witness :
    BenchmarkSpecFreeze ⟨fun q => decide (q = "/cfg/snap"), "/tmp/run0"⟩
        none = Except.ok [] ∧
    BenchmarkSpecFreeze ⟨fun q => decide (q = "/cfg/snap"), "/tmp/run0"⟩
        (some "/cfg/snap") = Except.ok ["/tmp/run0/restore_spec.pickle"] :=
  freeze_fallback ⟨fun q => decide (q = "/cfg/snap"), "/tmp/run0"⟩
    "/cfg/snap" (by decide) (by decide)

end PKB
